import Mathlib

/-!
Shallow embedding of the calculator engine in `src/src/Calculator.tsx`
(and of the evaluator of the second, unnamed near-duplicate file
`src/unnamed/part_000`).

JavaScript numbers are modelled as rationals extended with the IEEE
sentinels positive infinity, negative infinity and NaN (`JSNum`).
JavaScript strings are modelled as `List Char` (`JSString`).
`parseFloat` and `Number.prototype.toString(10)` are modelled over these
types; the calculator state machine (`calculatorReducer`, `compute`,
`executeOperation`) is translated statement by statement from the source.
-/

/-- JavaScript strings, modelled as their character sequences. -/
abbrev JSString : Type := List Char

/-- Coerce a Lean string literal to the `JSString` model. -/
def js (s : String) : JSString := s.data

/-- An exact fraction: an integer numerator over a natural denominator,
not necessarily in lowest terms. Every fraction the calculator builds
has a positive denominator; `toRat` gives its rational value. -/
structure Q : Type where
  num : ℤ
  den : ℕ
deriving DecidableEq, Repr

namespace Q

/-- The rational value of a fraction. -/
def toRat (q : Q) : ℚ := (q.num : ℚ) / (q.den : ℚ)

/-- Exact addition of fractions. -/
def add (a b : Q) : Q := ⟨a.num * b.den + b.num * a.den, a.den * b.den⟩

/-- Exact subtraction of fractions. -/
def sub (a b : Q) : Q := ⟨a.num * b.den - b.num * a.den, a.den * b.den⟩

/-- Exact multiplication of fractions. -/
def mul (a b : Q) : Q := ⟨a.num * b.num, a.den * b.den⟩

/-- Exact division of fractions; only used on a divisor with nonzero
numerator, and keeps the denominator a natural number by moving the
divisor's sign onto the numerator. -/
def div (a b : Q) : Q :=
  if 0 ≤ b.num then ⟨a.num * b.den, a.den * b.num.natAbs⟩
  else ⟨-(a.num * b.den), a.den * b.num.natAbs⟩

/-- Negation of a fraction. -/
def neg (a : Q) : Q := ⟨-a.num, a.den⟩

/-- An integer as a fraction. -/
def ofInt (n : ℤ) : Q := ⟨n, 1⟩

end Q

/-- A JavaScript number: a finite value (modelled as an exact fraction)
or one of the IEEE sentinels `Infinity`, `-Infinity`, `NaN`. -/
inductive JSNum : Type
  | finite (q : Q)
  | posInf
  | negInf
  | nan
deriving DecidableEq, Repr

namespace JSNum

/-- JavaScript `isNaN` on an already-numeric value. -/
def isNaN : JSNum → Bool
  | nan => true
  | _ => false

/-- JavaScript `+` on numbers: infinities of opposite signs give NaN,
NaN propagates. -/
def add : JSNum → JSNum → JSNum
  | finite a, finite b => finite (a.add b)
  | finite _, posInf => posInf
  | finite _, negInf => negInf
  | posInf, finite _ => posInf
  | negInf, finite _ => negInf
  | posInf, posInf => posInf
  | negInf, negInf => negInf
  | posInf, negInf => nan
  | negInf, posInf => nan
  | _, _ => nan

/-- JavaScript `-` on numbers. -/
def sub : JSNum → JSNum → JSNum
  | finite a, finite b => finite (a.sub b)
  | finite _, posInf => negInf
  | finite _, negInf => posInf
  | posInf, finite _ => posInf
  | negInf, finite _ => negInf
  | posInf, negInf => posInf
  | negInf, posInf => negInf
  | posInf, posInf => nan
  | negInf, negInf => nan
  | _, _ => nan

/-- JavaScript `*` on numbers: zero times an infinity gives NaN,
NaN propagates, signs multiply. -/
def mul : JSNum → JSNum → JSNum
  | finite a, finite b => finite (a.mul b)
  | finite a, posInf =>
      if a.num = 0 then nan else if 0 < a.num then posInf else negInf
  | finite a, negInf =>
      if a.num = 0 then nan else if 0 < a.num then negInf else posInf
  | posInf, finite b =>
      if b.num = 0 then nan else if 0 < b.num then posInf else negInf
  | negInf, finite b =>
      if b.num = 0 then nan else if 0 < b.num then negInf else posInf
  | posInf, posInf => posInf
  | negInf, negInf => posInf
  | posInf, negInf => negInf
  | negInf, posInf => negInf
  | _, _ => nan

/-- JavaScript `/` on numbers: a nonzero finite value divided by zero
gives a signed infinity, `0 / 0` gives NaN, an infinity divided by an
infinity gives NaN, a finite value divided by an infinity gives zero. -/
def div : JSNum → JSNum → JSNum
  | finite a, finite b =>
      if b.num = 0 then
        if a.num = 0 then nan else if 0 < a.num then posInf else negInf
      else finite (a.div b)
  | finite _, posInf => finite (Q.ofInt 0)
  | finite _, negInf => finite (Q.ofInt 0)
  | posInf, finite b => if 0 ≤ b.num then posInf else negInf
  | negInf, finite b => if 0 ≤ b.num then negInf else posInf
  | _, _ => nan

end JSNum

/-- The characters `0`–`9`; used for rendering numbers the way
JavaScript string coercion does. -/
def digitChar (d : ℕ) : Char :=
  match d with
  | 0 => '0' | 1 => '1' | 2 => '2' | 3 => '3' | 4 => '4'
  | 5 => '5' | 6 => '6' | 7 => '7' | 8 => '8' | _ => '9'

/-- Fuel-based worker for `natChars`; the fuel only bounds the digit
count, so any fuel at least the digit count gives the digit string. -/
def natCharsAux : ℕ → ℕ → List Char
  | 0, _ => []
  | _fuel + 1, n =>
      if n < 10 then [digitChar n]
      else natCharsAux _fuel (n / 10) ++ [digitChar (n % 10)]

/-- Decimal rendering of a natural number, as JavaScript renders
nonnegative integers. -/
def natChars (n : ℕ) : JSString := natCharsAux (n + 1) n

/-- Numeric value of a run of decimal digit characters
(most significant first). -/
def digitsVal (l : List Char) : ℕ :=
  l.foldl (fun n c => 10 * n + (c.toNat - 48)) 0

/-- Drop the trailing `'0'` characters of a digit run (used when
rendering a fractional part). -/
def stripTrailingZeros (l : List Char) : List Char :=
  (l.reverse.dropWhile (fun c => c = '0')).reverse

/-- Left-pad a digit run with `'0'` up to the given length. -/
def padZeros (k : ℕ) (l : List Char) : List Char :=
  List.replicate (k - l.length) '0' ++ l

/-- `Number.prototype.toString(10)` modelled over `JSNum`: the sentinels
render as `NaN`, `Infinity`, `-Infinity`; a finite value renders as an
optional sign, the integer part in decimal, and — when nonzero — a
fractional part of up to 17 digits with trailing zeros removed (exact
for every value the calculator's decimal inputs can produce). -/
def numToString : JSNum → JSString
  | JSNum.nan => js "NaN"
  | JSNum.posInf => js "Infinity"
  | JSNum.negInf => js "-Infinity"
  | JSNum.finite q =>
      if q.num.natAbs * 10 ^ 17 / q.den % 10 ^ 17 = 0 then
        (if q.num < 0 then ['-'] else []) ++
          natChars (q.num.natAbs * 10 ^ 17 / q.den / 10 ^ 17)
      else
        (if q.num < 0 then ['-'] else []) ++
          natChars (q.num.natAbs * 10 ^ 17 / q.den / 10 ^ 17) ++ ['.'] ++
          stripTrailingZeros (padZeros 17
            (natChars (q.num.natAbs * 10 ^ 17 / q.den % 10 ^ 17)))

/-- One parsed mantissa: integer digits, fraction digits, rest of input. -/
structure ParsedMantissa where
  intDigits : List Char
  fracDigits : List Char
  rest : List Char

/-- Split a leading run of decimal digits from the input. -/
def spanDigits (l : List Char) : List Char × List Char :=
  (l.takeWhile Char.isDigit, l.dropWhile Char.isDigit)

/-- Parse `digits [ '.' digits ]` at the head of the input. -/
def parseMantissa (l : List Char) : ParsedMantissa :=
  let (ds, r1) := spanDigits l
  match r1 with
  | '.' :: r2 =>
      let (fs, r3) := spanDigits r2
      ⟨ds, fs, r3⟩
  | _ => ⟨ds, [], r1⟩

/-- Parse an optional exponent `e`/`E` with optional sign at the head of
the input; an exponent with no digits is ignored, as `parseFloat`
ignores any invalid suffix. Returns the exponent as an integer. -/
def parseExponent (l : List Char) : ℤ :=
  match l with
  | 'e' :: r | 'E' :: r =>
      match r with
      | '+' :: r2 =>
          let (ds, _) := spanDigits r2
          if ds.isEmpty then 0 else (digitsVal ds : ℤ)
      | '-' :: r2 =>
          let (ds, _) := spanDigits r2
          if ds.isEmpty then 0 else -(digitsVal ds : ℤ)
      | _ =>
          let (ds, _) := spanDigits r
          if ds.isEmpty then 0 else (digitsVal ds : ℤ)
  | _ => 0

/-- Scale a fraction by an integer power of ten. -/
def scalePow10 (q : Q) (e : ℤ) : Q :=
  if 0 ≤ e then ⟨q.num * 10 ^ e.toNat, q.den⟩
  else ⟨q.num, q.den * 10 ^ (-e).toNat⟩

/-- The body of `parseFloat` after the optional sign has been consumed:
recognises `Infinity`, otherwise a decimal mantissa with optional
exponent; fails (NaN) when no digit is present. `neg` records the sign. -/
def parseFloatBody (neg : Bool) (l : List Char) : JSNum :=
  match l with
  | 'I' :: 'n' :: 'f' :: 'i' :: 'n' :: 'i' :: 't' :: 'y' :: _ =>
      if neg then JSNum.negInf else JSNum.posInf
  | _ =>
      let m := parseMantissa l
      if m.intDigits.isEmpty && m.fracDigits.isEmpty then JSNum.nan
      else
        let k := m.fracDigits.length
        let base : Q :=
          ⟨(digitsVal m.intDigits : ℤ) * 10 ^ k + (digitsVal m.fracDigits : ℤ),
            10 ^ k⟩
        let v := scalePow10 base (parseExponent m.rest)
        JSNum.finite (if neg then v.neg else v)

/-- JavaScript `parseFloat`: skip leading whitespace, read an optional
sign, then the longest numeric literal available; `NaN` when nothing
numeric is found. -/
def parseFloat (l : JSString) : JSNum :=
  let t := l.dropWhile Char.isWhitespace
  match t with
  | '-' :: r => parseFloatBody true r
  | '+' :: r => parseFloatBody false r
  | _ => parseFloatBody false t

/-- `enum Operation` of `Calculator.tsx`: the four operator tags,
whose runtime values are the display glyphs. -/
inductive Operation : Type
  | add
  | subtract
  | divide
  | multiply
deriving DecidableEq, Repr

/-- `executeOperation` of `src/src/Calculator.tsx` (lines 21–28):
add is `a + b`, subtract is `a - b`, divide is `a / b`,
multiply is `a * b`. -/
def executeOperation (operation : Operation) (a b : JSNum) : JSNum :=
  match operation with
  | Operation.add => JSNum.add a b
  | Operation.subtract => JSNum.sub a b
  | Operation.divide => JSNum.div a b
  | Operation.multiply => JSNum.mul a b

namespace Part000

/-- `executeOperation` of the unnamed duplicate file
`src/unnamed/part_000` (lines 11–18): identical to the main copy except
that its divide case computes `a * b` and its multiply case computes
`a / b`. -/
def executeOperation (operation : Operation) (a b : JSNum) : JSNum :=
  match operation with
  | Operation.add => JSNum.add a b
  | Operation.subtract => JSNum.sub a b
  | Operation.divide => JSNum.mul a b
  | Operation.multiply => JSNum.div a b

end Part000

/-- `CalculatorAction`, the discriminated union of the six action
interfaces of `Calculator.tsx`. The digit payload of `appendNumber` is
modelled as a natural number (the UI only dispatches 0–9). -/
inductive CalculatorAction : Type
  | appendNumber (digit : ℕ)
  | deleteDigit
  | addDecimalPoint
  | chooseOperation (operation : Operation)
  | compute
  | clear
deriving DecidableEq, Repr

/-- `interface CalculatorState` of `Calculator.tsx`: the two operand
strings and the optional pending operation. -/
structure CalculatorState : Type where
  currentOperand : JSString
  previousOperand : JSString
  operation : Option Operation
deriving DecidableEq, Repr

/-- `DEFAULT_CALCULATOR_STATE`: both operands empty, no operation. -/
def DEFAULT_CALCULATOR_STATE : CalculatorState :=
  { currentOperand := []
    previousOperand := []
    operation := none }

/-- `compute` of `Calculator.tsx` (lines 107–119): parse both operands
with `parseFloat`; if either is NaN, or no operation is pending, return
the state unchanged; otherwise store the stringified result of
`executeOperation` in `currentOperand`, clear `previousOperand` and
clear `operation`. -/
def compute (state : CalculatorState) : CalculatorState :=
  let prev := parseFloat state.previousOperand
  let current := parseFloat state.currentOperand
  if prev.isNaN || current.isNaN then state
  else
    match state.operation with
    | none => state
    | some op =>
        { state with
          currentOperand := numToString (executeOperation op prev current)
          operation := none
          previousOperand := [] }

/-- `calculatorReducer` of `Calculator.tsx` (lines 128–163), case by
case. The JavaScript `state.currentOperand + action.digit` coerces the
digit to its decimal string; `slice(0, -1)` drops the last character;
the `chooseOperation` case first collapses a pending computation. -/
def calculatorReducer (state : CalculatorState) (action : CalculatorAction) :
    CalculatorState :=
  match action with
  | CalculatorAction.appendNumber digit =>
      { state with currentOperand := state.currentOperand ++ natChars digit }
  | CalculatorAction.deleteDigit =>
      { state with currentOperand := state.currentOperand.dropLast }
  | CalculatorAction.addDecimalPoint =>
      { state with
        currentOperand :=
          if state.currentOperand.contains '.' then state.currentOperand
          else state.currentOperand ++ ['.'] }
  | CalculatorAction.chooseOperation operation =>
      let interimState :=
        if state.operation.isSome then compute state else state
      { interimState with
        previousOperand := interimState.currentOperand
        currentOperand := []
        operation := some operation }
  | CalculatorAction.compute => compute state
  | CalculatorAction.clear => DEFAULT_CALCULATOR_STATE

/-- Run a sequence of actions from the default state, as the
`useReducer` driver in `App` does. -/
def runActions (acts : List CalculatorAction) : CalculatorState :=
  acts.foldl calculatorReducer DEFAULT_CALCULATOR_STATE

/-- The rational value of a JavaScript number, when it is finite. -/
def JSNum.toRatNum : JSNum → Option ℚ
  | JSNum.finite q => some q.toRat
  | _ => none

/-- Whether an action's digit payload (if any) is a single digit 0–9,
as dispatched by the calculator's ten digit buttons. -/
def singleDigitAction (a : CalculatorAction) : Bool :=
  match a with
  | CalculatorAction.appendNumber d => d ≤ 9
  | _ => true

/-! ### Arithmetic correctness of the fraction operations -/

theorem Q.toRat_add (a b : Q) (ha : a.den ≠ 0) (hb : b.den ≠ 0) :
    (a.add b).toRat = a.toRat + b.toRat := by
  have ha' : (a.den : ℚ) ≠ 0 := Nat.cast_ne_zero.mpr ha
  have hb' : (b.den : ℚ) ≠ 0 := Nat.cast_ne_zero.mpr hb
  unfold Q.add Q.toRat
  push_cast
  field_simp

theorem Q.toRat_sub (a b : Q) (ha : a.den ≠ 0) (hb : b.den ≠ 0) :
    (a.sub b).toRat = a.toRat - b.toRat := by
  have ha' : (a.den : ℚ) ≠ 0 := Nat.cast_ne_zero.mpr ha
  have hb' : (b.den : ℚ) ≠ 0 := Nat.cast_ne_zero.mpr hb
  unfold Q.sub Q.toRat
  push_cast
  field_simp
  ring

theorem Q.toRat_mul (a b : Q) (ha : a.den ≠ 0) (hb : b.den ≠ 0) :
    (a.mul b).toRat = a.toRat * b.toRat := by
  have ha' : (a.den : ℚ) ≠ 0 := Nat.cast_ne_zero.mpr ha
  have hb' : (b.den : ℚ) ≠ 0 := Nat.cast_ne_zero.mpr hb
  unfold Q.mul Q.toRat
  push_cast
  field_simp

theorem Q.toRat_div (a b : Q) (ha : a.den ≠ 0) (hb : b.den ≠ 0)
    (hbn : b.num ≠ 0) : (a.div b).toRat = a.toRat / b.toRat := by
  have ha' : (a.den : ℚ) ≠ 0 := Nat.cast_ne_zero.mpr ha
  have hb' : (b.den : ℚ) ≠ 0 := Nat.cast_ne_zero.mpr hb
  have hbq : (b.num : ℚ) ≠ 0 := Int.cast_ne_zero.mpr hbn
  unfold Q.div Q.toRat
  rcases le_or_lt 0 b.num with h | h
  · rw [if_pos h]
    have habsQ : ((b.num.natAbs : ℕ) : ℚ) = (b.num : ℚ) := by
      rw [Int.cast_natAbs, abs_of_nonneg h]
    push_cast
    rw [habsQ]
    field_simp
  · rw [if_neg (not_le.mpr h)]
    have habsQ : ((b.num.natAbs : ℕ) : ℚ) = -(b.num : ℚ) := by
      rw [Int.cast_natAbs, abs_of_neg h]
      exact Int.cast_neg b.num
    push_cast
    rw [habsQ]
    field_simp

/-! ### Claim theorems -/

/-- C1: the evaluator maps each operation tag to its textbook result
with `a` the first-entered (previousOperand) value and `b` the
second-entered (currentOperand) value: Add gives `a + b`, Subtract
`a - b`, Multiply `a * b`, Divide `a / b`; in particular
`evaluate(Subtract, 10, 4) = 6` and `evaluate(Divide, 10, 4) = 2.5`. -/
theorem evaluator_maps_tags_to_textbook_results :
    ∀ a b : Q, a.den ≠ 0 → b.den ≠ 0 →
      ((executeOperation Operation.add (JSNum.finite a)
          (JSNum.finite b)).toRatNum = some (a.toRat + b.toRat))
      ∧ ((executeOperation Operation.subtract (JSNum.finite a)
          (JSNum.finite b)).toRatNum = some (a.toRat - b.toRat))
      ∧ ((executeOperation Operation.multiply (JSNum.finite a)
          (JSNum.finite b)).toRatNum = some (a.toRat * b.toRat))
      ∧ (b.toRat ≠ 0 →
          (executeOperation Operation.divide (JSNum.finite a)
            (JSNum.finite b)).toRatNum = some (a.toRat / b.toRat))
      ∧ executeOperation Operation.subtract (JSNum.finite (Q.ofInt 10))
          (JSNum.finite (Q.ofInt 4)) = JSNum.finite ⟨6, 1⟩
      ∧ (executeOperation Operation.divide (JSNum.finite (Q.ofInt 10))
          (JSNum.finite (Q.ofInt 4))).toRatNum = some (5 / 2 : ℚ) := by
  intro a b ha hb
  refine ⟨?_, ?_, ?_, ?_, by decide, ?_⟩
  · simp [executeOperation, JSNum.add, JSNum.toRatNum, Q.toRat_add a b ha hb]
  · simp [executeOperation, JSNum.sub, JSNum.toRatNum, Q.toRat_sub a b ha hb]
  · simp [executeOperation, JSNum.mul, JSNum.toRatNum, Q.toRat_mul a b ha hb]
  · intro hbr
    have hbn : b.num ≠ 0 := by
      intro h0
      exact hbr (by simp [Q.toRat, h0])
    simp [executeOperation, JSNum.div, hbn, JSNum.toRatNum,
      Q.toRat_div a b ha hb hbn]
  · norm_num [executeOperation, JSNum.div, Q.ofInt, Q.div, JSNum.toRatNum,
      Q.toRat]

/-- C1 witness: the theorem applied at the fractions 10/1 and 4/1, with
every hypothesis discharged there. -/
theorem evaluator_maps_tags_to_textbook_results_witness :
    (executeOperation Operation.divide (JSNum.finite ⟨10, 1⟩)
        (JSNum.finite ⟨4, 1⟩)).toRatNum = some (5 / 2 : ℚ) :=
  ((evaluator_maps_tags_to_textbook_results ⟨10, 1⟩ ⟨4, 1⟩ (by decide)
    (by decide)).2.2.2.1 (by norm_num [Q.toRat])).trans
    (by norm_num [Q.toRat])

/-- C2: the two copies of the evaluator differ exactly by a
multiply/divide swap: they agree on Add and Subtract, while the second
copy's Divide equals the first copy's Multiply and the second copy's
Multiply equals the first copy's Divide. -/
theorem duplicate_evaluator_swaps_multiply_divide :
    ∀ a b : JSNum,
      Part000.executeOperation Operation.add a b
          = executeOperation Operation.add a b
      ∧ Part000.executeOperation Operation.subtract a b
          = executeOperation Operation.subtract a b
      ∧ Part000.executeOperation Operation.divide a b
          = executeOperation Operation.multiply a b
      ∧ Part000.executeOperation Operation.multiply a b
          = executeOperation Operation.divide a b :=
  fun _ _ => ⟨rfl, rfl, rfl, rfl⟩

/-- C4: from `{previous:"", current:"5", operation:absent}`,
ChooseOperation(Add), AppendDigit(3), ChooseOperation(Subtract) pass
through `{previous:"5", current:"", operation:Add}` and
`{previous:"5", current:"3", operation:Add}` and end at
`{previous:"8", current:"", operation:Subtract}`, the nested Compute
having folded 5+3=8 into previousOperand. -/
theorem chained_operation_folds_pending_compute :
    calculatorReducer ⟨js "5", [], none⟩
        (CalculatorAction.chooseOperation Operation.add)
        = ⟨[], js "5", some Operation.add⟩
    ∧ calculatorReducer ⟨[], js "5", some Operation.add⟩
        (CalculatorAction.appendNumber 3)
        = ⟨js "3", js "5", some Operation.add⟩
    ∧ calculatorReducer ⟨js "3", js "5", some Operation.add⟩
        (CalculatorAction.chooseOperation Operation.subtract)
        = ⟨[], js "8", some Operation.subtract⟩ := by decide

/-- C8: Clear returns exactly the default state (both operands empty,
operation absent) regardless of the prior state. -/
theorem clear_returns_default_state :
    ∀ s : CalculatorState,
      calculatorReducer s CalculatorAction.clear = DEFAULT_CALCULATOR_STATE
      ∧ DEFAULT_CALCULATOR_STATE = ⟨[], [], none⟩ :=
  fun _ => ⟨rfl, rfl⟩

/-- C9: division by zero produces the IEEE sentinels rather than an
error: `evaluate(Divide, 5, 0)` is positive infinity and
`evaluate(Divide, 0, 0)` is NaN, and both propagate into
`currentOperand`'s stringified form without failure. -/
theorem divide_by_zero_produces_sentinels :
    executeOperation Operation.divide (JSNum.finite (Q.ofInt 5))
        (JSNum.finite (Q.ofInt 0)) = JSNum.posInf
    ∧ executeOperation Operation.divide (JSNum.finite (Q.ofInt 0))
        (JSNum.finite (Q.ofInt 0)) = JSNum.nan
    ∧ compute ⟨js "0", js "5", some Operation.divide⟩
        = ⟨js "Infinity", [], none⟩
    ∧ compute ⟨js "0", js "0", some Operation.divide⟩
        = ⟨js "NaN", [], none⟩ := by decide

/-- C10: the reducer is a total function: every state/action pair of
the defined union yields a state, and every operation tag yields a
result in the evaluator; nothing throws. -/
theorem reducer_total_on_action_union :
    (∀ (s : CalculatorState) (a : CalculatorAction),
        ∃ t, calculatorReducer s a = t)
    ∧ (∀ (op : Operation) (x y : JSNum), ∃ r, executeOperation op x y = r) :=
  ⟨fun s a => ⟨calculatorReducer s a, rfl⟩,
    fun op x y => ⟨executeOperation op x y, rfl⟩⟩

/-- Helper: `compute` is the identity when `currentOperand` does not
parse. -/
theorem compute_eq_self_of_current_nan (s : CalculatorState)
    (hc : (parseFloat s.currentOperand).isNaN = true) : compute s = s := by
  unfold compute
  simp [hc]

/-- Helper: `compute` is the identity when `previousOperand` does not
parse. -/
theorem compute_eq_self_of_prev_nan (s : CalculatorState)
    (hp : (parseFloat s.previousOperand).isNaN = true) : compute s = s := by
  unfold compute
  simp [hp]

/-- Helper: `compute` is the identity when no operation is pending. -/
theorem compute_eq_self_of_no_op (s : CalculatorState)
    (hop : s.operation = none) : compute s = s := by
  unfold compute
  simp [hop]

/-- Helper: when both operands parse and an operation is pending,
`compute` stores the stringified evaluator result and clears the rest. -/
theorem compute_eq_result (s : CalculatorState) (op : Operation)
    (hop : s.operation = some op)
    (h1 : (parseFloat s.previousOperand).isNaN = false)
    (h2 : (parseFloat s.currentOperand).isNaN = false) :
    compute s =
      ⟨numToString (executeOperation op (parseFloat s.previousOperand)
        (parseFloat s.currentOperand)), [], none⟩ := by
  unfold compute
  simp [h1, h2, hop]

/-- C3: applying Compute when either operand fails to parse (empty or
non-numeric, so `parseFloat` gives NaN) or no operation is pending
returns the state unchanged; otherwise it stores the stringified
evaluator result in `currentOperand`, clears `previousOperand` and
clears `operation`. -/
theorem compute_noop_or_stores_result :
    ∀ s : CalculatorState,
      (((parseFloat s.previousOperand).isNaN = true
          ∨ (parseFloat s.currentOperand).isNaN = true
          ∨ s.operation = none) →
        calculatorReducer s CalculatorAction.compute = s)
      ∧ (∀ op : Operation, s.operation = some op →
          (parseFloat s.previousOperand).isNaN = false →
          (parseFloat s.currentOperand).isNaN = false →
          calculatorReducer s CalculatorAction.compute =
            ⟨numToString (executeOperation op (parseFloat s.previousOperand)
              (parseFloat s.currentOperand)), [], none⟩) := by
  intro s
  constructor
  · intro h
    show compute s = s
    unfold compute
    rcases h with h | h | h
    · simp [h]
    · simp [h]
    · simp [h]
  · intro op hop h1 h2
    show compute s = _
    unfold compute
    simp [h1, h2, hop]

/-- C3 witness: the no-op branch at a state with empty
`previousOperand`, and the computing branch at `6 ÷ 3`. -/
theorem compute_noop_or_stores_result_witness :
    calculatorReducer ⟨js "3", [], some Operation.add⟩ CalculatorAction.compute
        = ⟨js "3", [], some Operation.add⟩
    ∧ calculatorReducer ⟨js "3", js "6", some Operation.divide⟩
        CalculatorAction.compute = ⟨js "2", [], none⟩ := by
  constructor
  · exact (compute_noop_or_stores_result _).1 (Or.inl (by decide))
  · exact ((compute_noop_or_stores_result _).2 Operation.divide rfl
      (by decide) (by decide)).trans (by decide)

/-- C6: when an operation is pending but `currentOperand` does not parse
(for example after two operator presses in a row), ChooseOperation moves
the old `currentOperand` into `previousOperand`, empties
`currentOperand` and sets the new operation — silently discarding the
old `previousOperand`. -/
theorem chooseOperation_discards_prev_on_unparsable_current :
    ∀ (s : CalculatorState) (op : Operation),
      s.operation.isSome = true →
      (parseFloat s.currentOperand).isNaN = true →
      calculatorReducer s (CalculatorAction.chooseOperation op) =
        ⟨[], s.currentOperand, some op⟩ := by
  intro s op hs hc
  unfold calculatorReducer
  simp [hs, compute_eq_self_of_current_nan s hc]

/-- C6 witness: pressing subtract with operation Add pending and an
empty `currentOperand` discards the stored operand `"7"`. -/
theorem chooseOperation_discards_prev_witness :
    calculatorReducer ⟨[], js "7", some Operation.add⟩
        (CalculatorAction.chooseOperation Operation.subtract)
        = ⟨[], [], some Operation.subtract⟩ :=
  chooseOperation_discards_prev_on_unparsable_current
    ⟨[], js "7", some Operation.add⟩ Operation.subtract (by decide) (by decide)

/-! ### Reachability invariants -/

/-- Helper: an invariant of every reachable state, by induction over the
action sequence. -/
theorem runActions_invariant {P : CalculatorState → Prop}
    (h0 : P DEFAULT_CALCULATOR_STATE)
    (hstep : ∀ s a, P s → P (calculatorReducer s a)) :
    ∀ acts : List CalculatorAction, P (runActions acts) := by
  have general : ∀ (l : List CalculatorAction) (s : CalculatorState),
      P s → P (l.foldl calculatorReducer s) := by
    intro l
    induction l with
    | nil => exact fun s hs => hs
    | cons a t ih => exact fun s hs => ih _ (hstep s a hs)
  exact fun acts => general acts _ h0

/-- Helper: each reducer step preserves "non-empty `previousOperand`
implies an operation is pending". -/
theorem step_preserves_prev_nonempty_imp_op (s : CalculatorState)
    (a : CalculatorAction)
    (h : s.previousOperand ≠ [] → s.operation.isSome = true) :
    (calculatorReducer s a).previousOperand ≠ [] →
      (calculatorReducer s a).operation.isSome = true := by
  cases a with
  | appendNumber d => exact h
  | deleteDigit => exact h
  | addDecimalPoint => exact h
  | chooseOperation op => exact fun _ => rfl
  | clear => exact fun hne => absurd rfl hne
  | compute =>
      show (compute s).previousOperand ≠ [] →
        (compute s).operation.isSome = true
      by_cases h1 : (parseFloat s.previousOperand).isNaN = true
      · rw [compute_eq_self_of_prev_nan s h1]; exact h
      · by_cases h2 : (parseFloat s.currentOperand).isNaN = true
        · rw [compute_eq_self_of_current_nan s h2]; exact h
        · cases hop : s.operation with
          | none => rw [compute_eq_self_of_no_op s hop]; exact h
          | some op =>
              rw [compute_eq_result s op hop (by simpa using h1)
                (by simpa using h2)]
              exact fun hne => absurd rfl hne

/-- C5 counterexample: the claimed "operation present iff
previousOperand non-empty" invariant fails on a reachable state:
pressing an operator button first thing from the default state yields a
state with an operation pending but `previousOperand` still empty. -/
theorem reachable_op_iff_prev_nonempty_refuted :
    ¬ ∀ acts : List CalculatorAction,
        ((runActions acts).operation.isSome = true ↔
          (runActions acts).previousOperand ≠ []) := by
  intro hall
  have h2 := (hall [CalculatorAction.chooseOperation Operation.add]).mp
    (by decide)
  exact h2 (by decide)

/-- C5 amended: in every state reachable from the default state, a
non-empty `previousOperand` implies the operation field is present (the
converse direction of the claimed invariant fails, as the
counterexample shows). -/
theorem reachable_prev_nonempty_implies_operation :
    ∀ acts : List CalculatorAction,
      (runActions acts).previousOperand ≠ [] →
      (runActions acts).operation.isSome = true :=
  runActions_invariant (fun hne => absurd rfl hne)
    step_preserves_prev_nonempty_imp_op

/-- C5 witness: the amended invariant applied after entering `5` and
choosing Add, where `previousOperand = "5"` is non-empty. -/
theorem reachable_prev_nonempty_implies_operation_witness :
    (runActions [CalculatorAction.appendNumber 5,
      CalculatorAction.chooseOperation Operation.add]).operation.isSome
      = true :=
  reachable_prev_nonempty_implies_operation
    [CalculatorAction.appendNumber 5,
      CalculatorAction.chooseOperation Operation.add] (by decide)

/-! ### The rendered number string has at most one decimal point -/

theorem digitChar_ne_dot (d : ℕ) : digitChar d ≠ '.' := by
  unfold digitChar
  split <;> decide

theorem not_dot_mem_natCharsAux (fuel : ℕ) :
    ∀ n : ℕ, '.' ∉ natCharsAux fuel n := by
  induction fuel with
  | zero => intro n; simp [natCharsAux]
  | succ f ih =>
      intro n
      unfold natCharsAux
      split
      · intro hmem
        rw [List.mem_singleton] at hmem
        exact digitChar_ne_dot n hmem.symm
      · intro hmem
        rw [List.mem_append] at hmem
        rcases hmem with hmem | hmem
        · exact ih _ hmem
        · rw [List.mem_singleton] at hmem
          exact digitChar_ne_dot _ hmem.symm

theorem count_dot_natChars (n : ℕ) : (natChars n).count '.' = 0 :=
  List.count_eq_zero.mpr (not_dot_mem_natCharsAux _ _)

theorem not_mem_of_contains_eq_false {l : List Char} {c : Char}
    (h : l.contains c = false) : c ∉ l := by
  intro hm
  have h2 : l.contains c = true := List.elem_iff.mpr hm
  rw [h] at h2
  exact Bool.false_ne_true h2

theorem mem_of_mem_stripTrailingZeros {l : List Char} {c : Char}
    (h : c ∈ stripTrailingZeros l) : c ∈ l := by
  unfold stripTrailingZeros at h
  rw [List.mem_reverse] at h
  exact List.mem_reverse.mp ((List.dropWhile_sublist _).mem h)

theorem mem_padZeros {k : ℕ} {l : List Char} {c : Char}
    (h : c ∈ padZeros k l) : c = '0' ∨ c ∈ l := by
  unfold padZeros at h
  rw [List.mem_append] at h
  rcases h with h | h
  · exact Or.inl (List.eq_of_mem_replicate h)
  · exact Or.inr h

theorem count_dot_numToString_le_one (x : JSNum) :
    (numToString x).count '.' ≤ 1 := by
  unfold numToString
  split
  · decide
  · decide
  · decide
  · rename_i q
    split
    · rw [List.count_append, count_dot_natChars]
      split <;> decide
    · rw [List.count_append, List.count_append, List.count_append,
        count_dot_natChars]
      have hstrip : (stripTrailingZeros (padZeros 17
          (natChars (q.num.natAbs * 10 ^ 17 / q.den % 10 ^ 17)))).count '.'
          = 0 := by
        rw [List.count_eq_zero]
        intro hmem
        rcases mem_padZeros (mem_of_mem_stripTrailingZeros hmem) with h | h
        · exact absurd h (by decide)
        · exact not_dot_mem_natCharsAux _ _ h
      rw [hstrip]
      split <;> decide

/-- Helper: each reducer step keeps at most one decimal point in
`currentOperand`. -/
theorem step_preserves_count_dot (s : CalculatorState) (a : CalculatorAction)
    (h : s.currentOperand.count '.' ≤ 1) :
    (calculatorReducer s a).currentOperand.count '.' ≤ 1 := by
  cases a with
  | appendNumber d =>
      show (s.currentOperand ++ natChars d).count '.' ≤ 1
      rw [List.count_append, count_dot_natChars]
      simpa using h
  | deleteDigit =>
      show s.currentOperand.dropLast.count '.' ≤ 1
      exact le_trans ((List.dropLast_sublist _).count_le '.') h
  | addDecimalPoint =>
      show (if s.currentOperand.contains '.' then s.currentOperand
        else s.currentOperand ++ ['.']).count '.' ≤ 1
      split
      · exact h
      · rename_i hc
        rw [List.count_append]
        have h0 : s.currentOperand.count '.' = 0 :=
          List.count_eq_zero.mpr
            (not_mem_of_contains_eq_false (by simpa using hc))
        rw [h0]
        decide
  | chooseOperation op =>
      show ([] : JSString).count '.' ≤ 1
      decide
  | compute =>
      show (compute s).currentOperand.count '.' ≤ 1
      by_cases h1 : (parseFloat s.previousOperand).isNaN = true
      · rw [compute_eq_self_of_prev_nan s h1]; exact h
      · by_cases h2 : (parseFloat s.currentOperand).isNaN = true
        · rw [compute_eq_self_of_current_nan s h2]; exact h
        · cases hop : s.operation with
          | none => rw [compute_eq_self_of_no_op s hop]; exact h
          | some op =>
              rw [compute_eq_result s op hop (by simpa using h1)
                (by simpa using h2)]
              exact count_dot_numToString_le_one _
  | clear =>
      show ([] : JSString).count '.' ≤ 1
      decide

/-- C7: in every state reachable by actions whose AppendDigit payloads
are single digits 0–9, `currentOperand` contains at most one decimal
point; and AddDecimalPoint is idempotent — applying it twice in a row
gives the same state as applying it once. -/
theorem current_at_most_one_dot_and_decimal_point_idempotent :
    (∀ acts : List CalculatorAction,
        (∀ a ∈ acts, singleDigitAction a = true) →
        (runActions acts).currentOperand.count '.' ≤ 1)
    ∧ (∀ s : CalculatorState,
        calculatorReducer (calculatorReducer s CalculatorAction.addDecimalPoint)
            CalculatorAction.addDecimalPoint
          = calculatorReducer s CalculatorAction.addDecimalPoint) := by
  constructor
  · intro acts _
    exact runActions_invariant (P := fun t => t.currentOperand.count '.' ≤ 1)
      (by decide) step_preserves_count_dot acts
  · intro s
    by_cases hc : s.currentOperand.contains '.' = true
    · have hmem : '.' ∈ s.currentOperand := List.elem_iff.mp hc
      simp [calculatorReducer, hc, hmem]
    · have hstate : calculatorReducer s CalculatorAction.addDecimalPoint
          = { s with currentOperand := s.currentOperand ++ ['.'] } := by
        show { s with currentOperand :=
          if s.currentOperand.contains '.' then s.currentOperand
          else s.currentOperand ++ ['.'] } = _
        rw [if_neg hc]
      have hc2 : (s.currentOperand ++ ['.']).contains '.' = true :=
        List.elem_iff.mpr (by simp)
      rw [hstate]
      simp [calculatorReducer, hc2]

/-- C7 witness: the invariant applied to the digit/decimal sequence
`1`, `.`, `2`, `.`, whose payloads are all single digits. -/
theorem current_at_most_one_dot_witness :
    (runActions [CalculatorAction.appendNumber 1,
      CalculatorAction.addDecimalPoint, CalculatorAction.appendNumber 2,
      CalculatorAction.addDecimalPoint]).currentOperand.count '.' ≤ 1 :=
  current_at_most_one_dot_and_decimal_point_idempotent.1
    [CalculatorAction.appendNumber 1, CalculatorAction.addDecimalPoint,
      CalculatorAction.appendNumber 2, CalculatorAction.addDecimalPoint]
    (by decide)
